import Mathlib

/-!
# ORM: condition builder and SQL adapter

A shallow embedding of `source/lib/adapters/sqladapter.cpp` (the `SqlAdapter`
operations), of the `ORMWhere` composition operators declared in
`source/ORM/ormwhere.h`, and of the Qt services they are written against
(`QString::arg`, `QString::resize`, `QHash`, `QVariant`, `QSqlRecord`,
`QSqlQuery`).

* A `QString` is a Lean `String`.  `size` and `resize` count characters; every
  `resize(size() - 2)` of the adapter cuts two characters of an ASCII literal
  of the adapter itself, where characters and UTF-16 units coincide.
* A `QHash` is the list of its entries in iteration order; `value` finds the
  first entry of a key and `insert` replaces the entry of a key.
* The SQL engine behind `QSqlQuery` is deterministic: its response to a
  statement is a function of the statements executed so far.  The query object
  keeps that history in `log`, so "the statement a call executes" is observable.
-/

namespace ORM

/-! ## QString -/

/-- The `QString::size` of a string. -/
def size (s : String) : Nat := s.data.length

/-- The `QString::resize` of a string to at most its own size: truncation. -/
def resize (s : String) (n : Nat) : String := ⟨s.data.take n⟩

/-- The digit value `QString::arg` reads in a place marker, for the decimal
digits `0`..`9`.  The decimal digits of other scripts, to which
`QChar::digitValue` gives a value too, are taken not to follow a `%`. -/
def digitValue (c : Char) : Option Nat :=
  if 48 ≤ c.toNat ∧ c.toNat ≤ 57 then some (c.toNat - 48) else none

/-- Skip the optional `L` of a place marker. -/
def skipLocale : List Char → List Char
  | [] => []
  | l :: r => if l = 'L' then r else l :: r

/-- The number of a place marker, one or two digits, and the text after it. -/
def escapeNumber : List Char → Option (Nat × List Char)
  | [] => none
  | d :: r =>
    match digitValue d with
    | none => none
    | some n =>
      match r with
      | [] => some (n, [])
      | e :: r2 =>
        match digitValue e with
        | some m => some (10 * n + m, r2)
        | none => some (n, e :: r2)

/-- The place marker a text starts with, if any: `%`, an optional `L`, one or
two digits.  Gives the marker's number and the text after the marker. -/
def escapeAt : List Char → Option (Nat × List Char)
  | [] => none
  | c :: cs => if c = '%' then escapeNumber (skipLocale cs) else none

/-- The lowest place-marker number of a text (`findArgEscapes` of `QString`),
scanning left to right; `none` when the text has no place marker.  The first
argument bounds the number of scanning steps; the length of the text is
enough. -/
def findArgEscapes : Nat → List Char → Option Nat
  | 0, _ => none
  | _ + 1, [] => none
  | f + 1, c :: cs =>
    match escapeAt (c :: cs) with
    | some (n, rest) =>
      match findArgEscapes f rest with
      | none => some n
      | some m => some (min n m)
    | none => findArgEscapes f cs

/-- Replace every place marker numbered `k` by `a`, leaving the other markers
and the plain text as they are (`replaceArgEscapes` of `QString`, field width
zero). -/
def replaceArgEscapes (k : Nat) (a : List Char) : Nat → List Char → List Char
  | 0, s => s
  | _ + 1, [] => []
  | f + 1, c :: cs =>
    match escapeAt (c :: cs) with
    | some (n, rest) =>
      if n = k then a ++ replaceArgEscapes k a f rest
      else (c :: cs).take ((c :: cs).length - rest.length) ++ replaceArgEscapes k a f rest
    | none => c :: replaceArgEscapes k a f cs

/-- The `QString::arg` of a string: every occurrence of the lowest-numbered
place marker is replaced by `a`; a string without place marker is returned
unchanged. -/
def arg (s a : String) : String :=
  match findArgEscapes s.data.length s.data with
  | none => s
  | some k => ⟨replaceArgEscapes k a.data s.data.length s.data⟩

/-- A text is free of place markers when `QString::arg` finds none in it. -/
def markerFree (s : String) : Prop := findArgEscapes s.data.length s.data = none

instance (s : String) : Decidable (markerFree s) :=
  inferInstanceAs (Decidable (findArgEscapes s.data.length s.data = none))

/-! ## QVariant, QHash, QSqlRecord -/

/-- A `QVariant`, seen through the three conversions the adapter applies to
one: `toString()`, `toInt()` and `toDouble()` (the latter as the exact value of
the double). -/
structure QVariant where
  toString : String
  toInt : Int
  toDouble : Rat
  deriving DecidableEq

/-- The invalid `QVariant`: empty text, and zero under both numeric
conversions. -/
def QVariant.invalid : QVariant := ⟨"", 0, 0⟩

/-- A `QHash` with `QString` keys: its entries in iteration order. -/
abbrev QHash (V : Type) := List (String × V)

/-- The `QHash::keys` of a hash, in iteration order. -/
def QHash.keys {V : Type} (h : QHash V) : List String := h.map Prod.fst

/-- The `QHash::value` of a key: the value of its first entry, or the default
value when the key has no entry. -/
def QHash.value {V : Type} (h : QHash V) (dflt : V) (key : String) : V :=
  match h.find? (fun e => e.1 == key) with
  | some e => e.2
  | none => dflt

/-- The `QHash::insert`: the entry of the key is replaced, or added. -/
def QHash.insert {V : Type} (h : QHash V) (key : String) (v : V) : QHash V :=
  (key, v) :: h.filter (fun e => !(e.1 == key))

/-- A `QSqlRecord`: the columns of a row with their values, in column order.
Column names are taken in the spelling the engine reports. -/
structure QSqlRecord where
  fields : List (String × QVariant)
  deriving DecidableEq

/-- The value of `record.field(name).value()`: the invalid variant when the
record has no such column. -/
def QSqlRecord.fieldValue (r : QSqlRecord) (name : String) : QVariant :=
  match r.fields.find? (fun e => e.1 == name) with
  | some e => e.2
  | none => QVariant.invalid

/-! ## QSqlQuery -/

/-- What the engine answers to a statement: success or failure, the result
rows, the record an unpositioned query reports, and the identifier of the row
an insert created. -/
structure Response where
  ok : Bool
  rows : List QSqlRecord
  blank : QSqlRecord
  lastInsertId : QVariant
  deriving DecidableEq

/-- A `QSqlQuery`: the engine (its answer to the last statement of a history
of statements), the statements executed so far, and the cursor over the result
of the last one. -/
structure QSqlQuery where
  engine : List String → Response
  log : List String
  pending : List QSqlRecord
  current : Option QSqlRecord
  blank : QSqlRecord
  insertId : QVariant

/-- The `QSqlQuery::exec` of a statement: the statement joins the history, the
cursor is placed before the first result row. -/
def QSqlQuery.exec (q : QSqlQuery) (stmt : String) : QSqlQuery × Bool :=
  let r := q.engine (q.log ++ [stmt])
  ({ q with
      log := q.log ++ [stmt]
      pending := if r.ok then r.rows else []
      current := none
      blank := r.blank
      insertId := r.lastInsertId }, r.ok)

/-- The `QSqlQuery::next`: move to the next result row, if there is one. -/
def QSqlQuery.next (q : QSqlQuery) : QSqlQuery × Bool :=
  match q.pending with
  | [] => ({ q with current := none }, false)
  | r :: rs => ({ q with pending := rs, current := some r }, true)

/-- The `QSqlQuery::record`: the current row. -/
def QSqlQuery.record (q : QSqlQuery) : QSqlRecord :=
  match q.current with
  | some r => r
  | none => q.blank

/-- The `QSqlQuery::value` of a column index: invalid when the query is not
on a row or the row has no such column. -/
def QSqlQuery.value (q : QSqlQuery) (i : Nat) : QVariant :=
  match q.current with
  | some r =>
    match r.fields.get? i with
    | some e => e.2
    | none => QVariant.invalid
  | none => QVariant.invalid

/-- The `QSqlQuery::lastInsertId`. -/
def QSqlQuery.lastInsertId (q : QSqlQuery) : QVariant := q.insertId

/-- The loop `while (m_query.next()) result.append(m_query.record());`.  The
first argument bounds the number of iterations; one more than the number of
pending rows is enough. -/
def fetchRows : Nat → QSqlQuery → List QSqlRecord → QSqlQuery × List QSqlRecord
  | 0, q, result => (q, result)
  | n + 1, q, result =>
    let step := q.next
    if step.2 then fetchRows n step.1 (result ++ [step.1.record]) else (step.1, result)

/-! ## SqlAdapter -/

/-- Modelled from the spec: the enumeration `ORMAbstractAdapter::Relation`,
whose declaration is not among the sources.  The spec names the kinds HasOne
and HasMany; `other` is any further value of the enumeration type, which
`createTableRelations` tests for. -/
inductive Relation where
  | HasOne
  | HasMany
  | other (code : Nat)
  deriving DecidableEq

/-- Modelled from the spec: the enumeration `ORMAbstractAdapter::Calculation`,
whose declaration is not among the sources.  The four selectors are the cases
of the switch in `calculation`; `other` is any further value of the
enumeration type, which the `default` case of that switch handles. -/
inductive Calculation where
  | Average
  | Maximum
  | Minimum
  | Sum
  | other (code : Nat)
  deriving DecidableEq

/-- The state of a `SqlAdapter`: the last rendered query, the query object and
the table type map. -/
structure SqlAdapter where
  m_lastQuery : String
  m_query : QSqlQuery
  m_tableTypes : QHash String

/-- Execute `m_lastQuery` on `m_query`, as every operation does after
rendering. -/
def SqlAdapter.execLast (s : SqlAdapter) : SqlAdapter × Bool :=
  let r := s.m_query.exec s.m_lastQuery
  ({ s with m_query := r.1 }, r.2)

/-- `SqlAdapter::fillTableTypes`. -/
def fillTableTypes (s : SqlAdapter) : SqlAdapter :=
  let t := s.m_tableTypes
  let t := t.insert "bool" "BOOL"
  let t := t.insert "int" "INT"
  let t := t.insert "uint" "INT UNSIGNED"
  let t := t.insert "qlonglong" "BIGINT"
  let t := t.insert "qulonglong" "BIGINT UNSIGNED"
  let t := t.insert "double" "DOUBLE"
  let t := t.insert "QByteArray" "BLOB"
  let t := t.insert "QChar" "CHAR(1)"
  let t := t.insert "QDate" "DATE"
  let t := t.insert "QTime" "TIME"
  let t := t.insert "QDateTime" "DATETIME"
  let t := t.insert "QString" "TEXT"
  { s with m_tableTypes := t }

/-- `SqlAdapter::createDatabase`. -/
def createDatabase (s : SqlAdapter) (name : String) : SqlAdapter × Bool :=
  let s := { s with m_lastQuery := arg "CREATE DATABASE %1;" name }
  s.execLast

/-- `SqlAdapter::createTable`. -/
def createTable (s : SqlAdapter) (tableName : String) (info : QHash String) :
    SqlAdapter × Bool :=
  let s := { s with m_lastQuery := arg "CREATE TABLE %1(id BIGINT, " tableName }
  let s := info.keys.foldl
    (fun s name =>
      { s with m_lastQuery := (s.m_lastQuery ++
          arg (arg "%1 %2, " name) (s.m_tableTypes.value "" (info.value "" name))) })
    s
  let s := { s with m_lastQuery := s.m_lastQuery ++ "PRIMARY KEY (id));" }
  s.execLast

/-- `SqlAdapter::createTableRelations`. -/
def createTableRelations (s : SqlAdapter) (parent : String) (rel : Relation)
    (child : String) : SqlAdapter × Bool :=
  let s :=
    if rel = Relation.HasOne ∨ rel = Relation.HasMany then
      { s with m_lastQuery := arg (arg "ALTER TABLE %1 ADD %2_id INTEGER;" child) parent }
    else s
  s.execLast

/-- `SqlAdapter::dropTable`. -/
def dropTable (s : SqlAdapter) (tableName : String) : SqlAdapter × Bool :=
  let s := { s with m_lastQuery := arg "DROP TABLE %1;" tableName }
  s.execLast

/-- `SqlAdapter::dropDatabase`. -/
def dropDatabase (s : SqlAdapter) (name : String) : SqlAdapter × Bool :=
  let s := { s with m_lastQuery := arg "DROP DATABASE %1;" name }
  s.execLast

/-- `SqlAdapter::addRecord`. -/
def addRecord (s : SqlAdapter) (tableName : String) (info : QHash QVariant) :
    SqlAdapter × Int :=
  let s := { s with m_lastQuery := arg "INSERT INTO %1(" tableName }
  let s := info.keys.foldl
    (fun s key => { s with m_lastQuery := s.m_lastQuery ++ (key ++ ", ") }) s
  let s :=
    if !info.isEmpty then
      { s with m_lastQuery := resize s.m_lastQuery (size s.m_lastQuery - 2) }
    else s
  let s := { s with m_lastQuery := s.m_lastQuery ++ ") VALUES(" }
  let s := info.keys.foldl
    (fun s key =>
      { s with m_lastQuery := (s.m_lastQuery ++
          ("'" ++ (info.value QVariant.invalid key).toString ++ "', ")) }) s
  let s :=
    if !info.isEmpty then
      { s with m_lastQuery := resize s.m_lastQuery (size s.m_lastQuery - 2) }
    else s
  let s := { s with m_lastQuery := s.m_lastQuery ++ ");" }
  let r := s.execLast
  if r.2 then (r.1, r.1.m_query.lastInsertId.toInt) else (r.1, -1)

/-- `SqlAdapter::updateRecord`. -/
def updateRecord (s : SqlAdapter) (tableName : String) (id : Int)
    (info : QHash QVariant) : SqlAdapter × Bool :=
  let s := { s with m_lastQuery := arg "UPDATE %1 SET " tableName }
  let s := info.keys.foldl
    (fun s fieldName =>
      { s with m_lastQuery := (s.m_lastQuery ++
          arg (arg "%1 = '%2', " fieldName) (info.value QVariant.invalid fieldName).toString) })
    s
  let s := { s with m_lastQuery := resize s.m_lastQuery (size s.m_lastQuery - 2) }
  let s := { s with m_lastQuery := s.m_lastQuery ++ arg " WHERE id = %1;" (toString id) }
  s.execLast

/-- `SqlAdapter::find`. -/
def find (s : SqlAdapter) (tableName fieldName params : String) :
    SqlAdapter × List QSqlRecord :=
  let s := { s with
    m_lastQuery := arg (arg (arg "SELECT %1 FROM %2 %3;" fieldName) tableName) params }
  let r := s.execLast
  if r.2 then
    let f := fetchRows (r.1.m_query.pending.length + 1) r.1.m_query []
    ({ r.1 with m_query := f.1 }, f.2)
  else (r.1, [])

/-- `SqlAdapter::first`. -/
def first (s : SqlAdapter) (tableName : String) : SqlAdapter × QSqlRecord :=
  let s := { s with m_lastQuery := arg "SELECT * FROM %1 ORDER BY id ASC LIMIT 1;" tableName }
  let s := s.execLast.1
  let s := { s with m_query := s.m_query.next.1 }
  (s, s.m_query.record)

/-- `SqlAdapter::last`. -/
def last (s : SqlAdapter) (tableName : String) : SqlAdapter × QSqlRecord :=
  let s := { s with m_lastQuery := arg "SELECT * FROM %1 ORDER BY id DESC LIMIT 1;" tableName }
  let s := s.execLast.1
  let s := { s with m_query := s.m_query.next.1 }
  (s, s.m_query.record)

/-- `SqlAdapter::remove`. -/
def remove (s : SqlAdapter) (tableName params : String) : SqlAdapter × Bool :=
  let s := { s with m_lastQuery := arg (arg "DELETE FROM %1 %2;" tableName) params }
  s.execLast

/-- `SqlAdapter::count`. -/
def count (s : SqlAdapter) (tableName a : String) : SqlAdapter × Int :=
  let s := { s with m_lastQuery := arg (arg "SELECT COUNT(%1) FROM %2;" a) tableName }
  let r := s.execLast
  if r.2 then
    let s := { r.1 with m_query := r.1.m_query.next.1 }
    (s, (s.m_query.value 0).toInt)
  else (r.1, -1)

/-- `SqlAdapter::countBy`. -/
def countBy (s : SqlAdapter) (tableName params : String) : SqlAdapter × Int :=
  let s := { s with m_lastQuery := arg (arg "SELECT COUNT(*) FROM %1 %2;" tableName) params }
  let r := s.execLast
  if r.2 then
    let s := { r.1 with m_query := r.1.m_query.next.1 }
    (s, (s.m_query.value 0).toInt)
  else (r.1, -1)

/-- `SqlAdapter::calculation`. -/
def calculation (s : SqlAdapter) (func : Calculation) (tableName fieldName params : String) :
    SqlAdapter × Rat :=
  let funcName : Option String :=
    match func with
    | Calculation.Average => some "AVG"
    | Calculation.Maximum => some "MAX"
    | Calculation.Minimum => some "MIN"
    | Calculation.Sum => some "SUM"
    | Calculation.other _ => none
  match funcName with
  | none => (s, 0)
  | some funcName =>
    let s := { s with
      m_lastQuery :=
        arg (arg (arg (arg "SELECT %1(%2) FROM %3 %4;" funcName) fieldName) tableName) params }
    let s := s.execLast.1
    let s := { s with m_query := s.m_query.next.1 }
    (s, (s.m_query.value 0).toDouble)

/-- The text `whereForChildren` that `SqlAdapter::includes` builds from the
parent table and the fetched parent rows. -/
def whereForChildren (parentModel : String) (generalList : List QSqlRecord) : String :=
  let w := arg "WHERE %1_id IN (" parentModel
  let w := generalList.foldl (fun w r => w ++ ((r.fieldValue "id").toString ++ ", ")) w
  let w := resize w (size w - 2)
  w ++ ")"

/-- `SqlAdapter::includes`. -/
def includes (s : SqlAdapter) (parentModel : String) (childModels : List String)
    (params : String) : SqlAdapter × QHash (List QSqlRecord) :=
  let g := find s parentModel "*" params
  let result : QHash (List QSqlRecord) := QHash.insert [] parentModel g.2
  let w := whereForChildren parentModel g.2
  childModels.foldl
    (fun acc child =>
      let f := find acc.1 child "*" w
      (f.1, acc.2.insert child f.2))
    (g.1, result)

/-! ## ORMWhere -/

/-- Modelled from the spec: the condition object of `ORMWhere`, whose member
functions are declared in `ormwhere.h` and defined in a file that is not among
the sources.  A condition is its rendered predicate text; the empty condition
renders as the empty string. -/
structure ORMWhere where
  m_whereCondition : String
  deriving DecidableEq

/-- Modelled from the spec: `ORMWhere::getWhereCondition`, the current
predicate text. -/
def ORMWhere.getWhereCondition (w : ORMWhere) : String := w.m_whereCondition

/-- Modelled from the spec: `ORMWhere::operator&&`, which "composes two
conditions as `(A) AND (B)`" and returns "a new condition object".  Gives the
receiver and the argument after the call, and the new condition. -/
def ORMWhere.opAnd (a b : ORMWhere) : ORMWhere × ORMWhere × ORMWhere :=
  (a, b, ⟨"(" ++ a.m_whereCondition ++ ") AND (" ++ b.m_whereCondition ++ ")"⟩)

/-- Modelled from the spec: `ORMWhere::operator||`, which "composes as
`(A) OR (B)`" and returns "a new condition object".  Gives the receiver and
the argument after the call, and the new condition. -/
def ORMWhere.opOr (a b : ORMWhere) : ORMWhere × ORMWhere × ORMWhere :=
  (a, b, ⟨"(" ++ a.m_whereCondition ++ ") OR (" ++ b.m_whereCondition ++ ")"⟩)

/-! ## Vocabulary of the statements -/

/-- A stretch of text `p` in front of `t` in which the scan for place markers
finds none. -/
def inert : List Char → List Char → Prop
  | [], _ => True
  | c :: v, t => escapeAt (c :: (v ++ t)) = none ∧ inert v t

/-- A text without the character `%`. -/
def noPercent (p : String) : Prop := ∀ c ∈ p.data, c ≠ '%'

instance (p : String) : Decidable (noPercent p) :=
  inferInstanceAs (Decidable (∀ c ∈ p.data, c ≠ '%'))

/-- A text whose first character is neither `L` nor a digit. -/
def startsPlain (t : String) : Bool :=
  match t.data with
  | [] => false
  | h :: _ => h != 'L' && (digitValue h).isNone

/-- The rows a statement yields when the adapter executes it in state `s`: the
rows of the engine's answer, none when the statement fails. -/
def fetched (s : SqlAdapter) (stmt : String) : List QSqlRecord :=
  let r := s.m_query.engine (s.m_query.log ++ [stmt])
  if r.ok then r.rows else []

/-- The first column of the first row a statement yields in state `s`; the
invalid variant when there is no such row or column. -/
def firstValue (s : SqlAdapter) (stmt : String) : QVariant :=
  match fetched s stmt with
  | [] => QVariant.invalid
  | r :: _ =>
    match r.fields.get? 0 with
    | some e => e.2
    | none => QVariant.invalid

/-- The text of the `id` column of each row. -/
def idTexts (rows : List QSqlRecord) : List String :=
  rows.map (fun r => (r.fieldValue "id").toString)

/-- A query object on a given engine, before any statement. -/
def freshQuery (e : List String → Response) : QSqlQuery :=
  ⟨e, [], [], none, ⟨[]⟩, QVariant.invalid⟩

/-- An adapter on a given engine, before any statement, its table type map
filled. -/
def freshAdapter (e : List String → Response) : SqlAdapter :=
  fillTableTypes ⟨"", freshQuery e, []⟩

/-- An engine that accepts every statement, returns no row and reports no
inserted identifier. -/
def quietEngine : List String → Response :=
  fun _ => ⟨true, [], ⟨[]⟩, QVariant.invalid⟩

/-- An engine that rejects every statement. -/
def failingEngine : List String → Response :=
  fun _ => ⟨false, [], ⟨[]⟩, QVariant.invalid⟩

/-- An integer value as a `QVariant`. -/
def QVariant.ofInt (n : Int) : QVariant := ⟨ToString.toString n, n, n⟩

/-- A text value as a `QVariant` (its numeric conversions are not used). -/
def QVariant.ofText (t : String) : QVariant := ⟨t, 0, 0⟩

/-- An engine with one table `a` holding the single row `id = 1`: it answers
the selection of all rows of `a` with that row, and every other statement with
no row. -/
def oneRowEngine : List String → Response :=
  fun history =>
    if history.getLast? = some "SELECT * FROM a ;" then
      ⟨true, [⟨[("id", QVariant.ofInt 1)]⟩], ⟨[]⟩, QVariant.invalid⟩
    else ⟨true, [], ⟨[]⟩, QVariant.invalid⟩

/-- The statement `addRecord` is to render: the keys of the mapping separated
by `, `, then their values between single quotes, separated by `, `. -/
def insertText (tableName : String) (info : QHash QVariant) : String :=
  "INSERT INTO " ++ tableName ++ "(" ++ ", ".intercalate info.keys ++ ") VALUES(" ++
    ", ".intercalate
      (info.keys.map (fun k => "'" ++ (info.value QVariant.invalid k).toString ++ "'")) ++
    ");"

/-- What `calculation` is to do for an aggregate selector whose function is
named `funcName`: render and execute `SELECT <F>(<field>) FROM <table> <clause>;`
and return the first column of the first result row as a number. -/
def rendersAggregate (s : SqlAdapter) (func : Calculation) (funcName : String)
    (tableName fieldName params : String) : Prop :=
  (calculation s func tableName fieldName params).1.m_lastQuery =
      "SELECT " ++ funcName ++ "(" ++ fieldName ++ ") FROM " ++ tableName ++ " " ++ params ++ ";" ∧
    (calculation s func tableName fieldName params).1.m_query.log =
      s.m_query.log ++
        ["SELECT " ++ funcName ++ "(" ++ fieldName ++ ") FROM " ++ tableName ++ " " ++ params ++ ";"] ∧
    (calculation s func tableName fieldName params).2 =
      (firstValue s
        ("SELECT " ++ funcName ++ "(" ++ fieldName ++ ") FROM " ++ tableName ++ " " ++ params ++
          ";")).toDouble

/-- The adapter after it has executed a selection in state `s` and read all of
its rows. -/
def afterSelect (s : SqlAdapter) (stmt : String) : SqlAdapter :=
  { m_lastQuery := stmt
    m_query :=
      { engine := s.m_query.engine
        log := s.m_query.log ++ [stmt]
        pending := []
        current := none
        blank := (s.m_query.engine (s.m_query.log ++ [stmt])).blank
        insertId := (s.m_query.engine (s.m_query.log ++ [stmt])).lastInsertId }
    m_tableTypes := s.m_tableTypes }

/-- One turn of the loop of `includes` over the child tables, with the filter
text `w`. -/
def childStep (w : String) (acc : SqlAdapter × QHash (List QSqlRecord)) (child : String) :
    SqlAdapter × QHash (List QSqlRecord) :=
  ((find acc.1 child "*" w).1, acc.2.insert child (find acc.1 child "*" w).2)

/-- An operation overwrites the last rendered query: started from two states
that differ in that field only it does the same, and it executes one
statement, the text it leaves in the field. -/
def overwrites {α : Type} (op : SqlAdapter → SqlAdapter × α) : Prop :=
  ∀ (s : SqlAdapter) (q : String),
    op { s with m_lastQuery := q } = op s ∧
      (op s).1.m_query.log = s.m_query.log ++ [(op s).1.m_lastQuery]

/-- An operation of several statements overwrites the last rendered query:
started from two states that differ in that field only it does the same, and
the last statement it executes is the text it leaves in the field. -/
def overwritesLast {α : Type} (op : SqlAdapter → SqlAdapter × α) : Prop :=
  ∀ (s : SqlAdapter) (q : String),
    op { s with m_lastQuery := q } = op s ∧
      ∃ earlier : List String,
        (op s).1.m_query.log = s.m_query.log ++ earlier ++ [(op s).1.m_lastQuery]

theorem escapeAt_cons_ne {c : Char} (cs : List Char) (h : c ≠ '%') : escapeAt (c :: cs) = none := by
  simp [escapeAt, h]

theorem skipLocale_length (l : List Char) : (skipLocale l).length ≤ l.length := by
  cases l with
  | nil => simp [skipLocale]
  | cons c cs =>
    simp only [skipLocale]
    split <;> simp

theorem escapeNumber_length {l : List Char} {n : Nat} {rest : List Char}
    (h : escapeNumber l = some (n, rest)) : rest.length < l.length := by
  cases l with
  | nil => simp [escapeNumber] at h
  | cons d r =>
    simp only [escapeNumber] at h
    cases hd : digitValue d with
    | none => simp [hd] at h
    | some v =>
      simp only [hd] at h
      cases r with
      | nil => simp at h; obtain ⟨_, rfl⟩ := h; simp
      | cons e r2 =>
        simp only at h
        cases he : digitValue e with
        | none => simp [he] at h; obtain ⟨_, rfl⟩ := h; simp
        | some w => simp [he] at h; obtain ⟨_, rfl⟩ := h; simp; omega

theorem escapeAt_length {l : List Char} {n : Nat} {rest : List Char}
    (h : escapeAt l = some (n, rest)) : rest.length < l.length := by
  cases l with
  | nil => simp [escapeAt] at h
  | cons c cs =>
    simp only [escapeAt] at h
    split at h
    · have h1 := escapeNumber_length h
      have h2 := skipLocale_length cs
      simp only [List.length_cons]
      omega
    · simp at h

theorem findArgEscapes_fuel : ∀ (f g : Nat) (l : List Char), l.length ≤ f → l.length ≤ g →
    findArgEscapes f l = findArgEscapes g l := by
  intro f
  induction f with
  | zero =>
    intro g l hf hg
    have : l = [] := List.length_eq_zero.mp (Nat.le_zero.mp hf)
    subst this
    cases g <;> simp [findArgEscapes]
  | succ f ih =>
    intro g l hf hg
    cases l with
    | nil => cases g <;> simp [findArgEscapes]
    | cons c cs =>
      cases g with
      | zero => simp at hg
      | succ g =>
        simp only [findArgEscapes]
        cases h : escapeAt (c :: cs) with
        | none => simp only []; exact ih g cs (by simpa using hf) (by simpa using hg)
        | some p =>
          obtain ⟨n, rest⟩ := p
          have hl := escapeAt_length h
          simp only [List.length_cons] at hl hf hg
          simp only []
          rw [ih g rest (by omega) (by omega)]

theorem replaceArgEscapes_fuel (k : Nat) (a : List Char) : ∀ (f g : Nat) (l : List Char),
    l.length ≤ f → l.length ≤ g →
    replaceArgEscapes k a f l = replaceArgEscapes k a g l := by
  intro f
  induction f with
  | zero =>
    intro g l hf hg
    have : l = [] := List.length_eq_zero.mp (Nat.le_zero.mp hf)
    subst this
    cases g <;> simp [replaceArgEscapes]
  | succ f ih =>
    intro g l hf hg
    cases l with
    | nil => cases g <;> simp [replaceArgEscapes]
    | cons c cs =>
      cases g with
      | zero => simp at hg
      | succ g =>
        simp only [replaceArgEscapes]
        cases h : escapeAt (c :: cs) with
        | none => simp only []; rw [ih g cs (by simpa using hf) (by simpa using hg)]
        | some p =>
          obtain ⟨n, rest⟩ := p
          have hl := escapeAt_length h
          simp only [List.length_cons] at hl hf hg
          simp only []
          rw [ih g rest (by omega) (by omega)]


theorem findArgEscapes_inert : ∀ (p t : List Char), inert p t → ∀ f, (p ++ t).length ≤ f →
    findArgEscapes f (p ++ t) = findArgEscapes t.length t := by
  intro p
  induction p with
  | nil => intro t _ f hf; exact findArgEscapes_fuel f t.length t (by simpa using hf) (le_refl _)
  | cons c v ih =>
    intro t h f hf
    obtain ⟨h1, h2⟩ := h
    cases f with
    | zero => simp at hf
    | succ f =>
      rw [List.cons_append, findArgEscapes, h1]
      exact ih t h2 f (by simpa using hf)

theorem replaceArgEscapes_inert (k : Nat) (a : List Char) : ∀ (p t : List Char), inert p t →
    ∀ f, (p ++ t).length ≤ f →
    replaceArgEscapes k a f (p ++ t) = p ++ replaceArgEscapes k a t.length t := by
  intro p
  induction p with
  | nil => intro t _ f hf; exact replaceArgEscapes_fuel k a f t.length t (by simpa using hf) (le_refl _)
  | cons c v ih =>
    intro t h f hf
    obtain ⟨h1, h2⟩ := h
    cases f with
    | zero => simp at hf
    | succ f =>
      rw [List.cons_append, replaceArgEscapes, h1]
      simp only []
      rw [ih t h2 f (by simpa using hf)]
      rfl

theorem arg_inert (p t a : String) (h : inert p.data t.data) : arg (p ++ t) a = p ++ arg t a := by
  unfold arg
  rw [String.data_append, findArgEscapes_inert p.data t.data h _ (le_refl _)]
  cases findArgEscapes t.data.length t.data with
  | none => rfl
  | some k =>
    simp only []
    apply String.ext
    rw [String.data_append]
    exact replaceArgEscapes_inert k a.data p.data t.data h _ (le_refl _)

theorem inert_of_noPercent : ∀ (p t : List Char), (∀ c ∈ p, c ≠ '%') → inert p t := by
  intro p
  induction p with
  | nil => intro t _; trivial
  | cons c v ih =>
    intro t h
    exact ⟨escapeAt_cons_ne _ (h c (by simp)), ih t (fun d hd => h d (by simp [hd]))⟩

theorem escapeNumber_append_none {b : List Char} (h : Char) (t : List Char)
    (hb : escapeNumber b = none) (hh : digitValue h = none) :
    escapeNumber (b ++ h :: t) = none := by
  cases b with
  | nil => simp [escapeNumber, hh]
  | cons d r =>
    simp only [escapeNumber] at hb
    cases hd : digitValue d with
    | none => simp [escapeNumber, hd]
    | some v =>
      simp only [hd] at hb
      cases r with
      | nil => simp at hb
      | cons e r2 =>
        simp only at hb
        cases he : digitValue e <;> simp [he] at hb

theorem escapeAt_append_none {p : List Char} (h : Char) (t : List Char)
    (hp : escapeAt p = none) (hL : h ≠ 'L') (hh : digitValue h = none) (hne : p ≠ []) :
    escapeAt (p ++ h :: t) = none := by
  cases p with
  | nil => exact absurd rfl hne
  | cons c v =>
    simp only [escapeAt, List.cons_append] at hp ⊢
    split
    · rename_i hc
      simp only [hc, if_true] at hp
      cases v with
      | nil => simp [skipLocale, hL, escapeNumber, hh]
      | cons l r =>
        simp only [skipLocale, List.cons_append] at hp ⊢
        split
        · rename_i hl
          simp only [hl, if_true] at hp
          exact escapeNumber_append_none h t hp hh
        · rename_i hl
          simp only [hl, if_false] at hp
          exact escapeNumber_append_none (b := l :: r) h t hp hh
    · rfl

theorem inert_of_markerFree : ∀ (p : List Char) (h : Char) (t : List Char),
    findArgEscapes p.length p = none → h ≠ 'L' → digitValue h = none → inert p (h :: t) := by
  intro p
  induction p with
  | nil => intro h t _ _ _; trivial
  | cons c v ih =>
    intro h t hp hL hh
    simp only [List.length_cons, findArgEscapes] at hp
    cases he : escapeAt (c :: v) with
    | some q =>
      obtain ⟨n, rest⟩ := q
      simp only [he] at hp
      cases hr : findArgEscapes v.length rest <;> simp [hr] at hp
    | none =>
      simp only [he] at hp
      refine ⟨?_, ih h t hp hL hh⟩
      have := escapeAt_append_none h t he hL hh (by simp)
      simpa using this

theorem arg_lit (p t a : String) (h : noPercent p) : arg (p ++ t) a = p ++ arg t a :=
  arg_inert p t a (inert_of_noPercent p.data t.data h)

theorem arg_name (p t a : String) (hp : markerFree p) (ht : startsPlain t = true) :
    arg (p ++ t) a = p ++ arg t a := by
  apply arg_inert
  unfold startsPlain at ht
  cases hd : t.data with
  | nil => simp [hd] at ht
  | cons h r =>
    simp only [hd, Bool.and_eq_true, bne_iff_ne, ne_eq, Option.isNone_iff_eq_none] at ht
    exact inert_of_markerFree p.data h r hp ht.1 ht.2

theorem startsPlain_append (l x : String) (h : startsPlain l = true) :
    startsPlain (l ++ x) = true := by
  unfold startsPlain at h ⊢
  rw [String.data_append]
  cases hd : l.data with
  | nil => simp [hd] at h
  | cons c r => simp only [hd] at h; simpa using h

/-! ## What freedom of place markers means -/

theorem findArgEscapes_eq_none_iff : ∀ l : List Char,
    findArgEscapes l.length l = none ↔ ∀ u v, l = u ++ v → escapeAt v = none := by
  intro l
  induction l with
  | nil =>
    constructor
    · intro _ u v h
      have hv : v = [] := (List.append_eq_nil.mp h.symm).2
      subst hv
      rfl
    · intro _; rfl
  | cons c cs ih =>
    have step : findArgEscapes (c :: cs).length (c :: cs) = none ↔
        escapeAt (c :: cs) = none ∧ findArgEscapes cs.length cs = none := by
      simp only [List.length_cons, findArgEscapes]
      cases he : escapeAt (c :: cs) with
      | none => simp
      | some p =>
        obtain ⟨n, rest⟩ := p
        cases hr : findArgEscapes cs.length rest <;> simp [hr]
    rw [step, ih]
    constructor
    · rintro ⟨h0, h1⟩ u v h
      cases u with
      | nil => simp only [List.nil_append] at h; rw [← h]; exact h0
      | cons a u' =>
        simp only [List.cons_append, List.cons.injEq] at h
        exact h1 u' v h.2
    · intro h
      exact ⟨h [] (c :: cs) rfl, fun u v e => h (c :: u) v (by rw [e]; rfl)⟩

theorem digitValue_L : digitValue 'L' = none := by decide

theorem escapeNumber_eq_none_of_head {d : Char} (r : List Char) (h : digitValue d = none) :
    escapeNumber (d :: r) = none := by
  simp [escapeNumber, h]

theorem head_of_escapeNumber_eq_none {d : Char} {r : List Char}
    (h : escapeNumber (d :: r) = none) : digitValue d = none := by
  simp only [escapeNumber] at h
  cases hd : digitValue d with
  | none => rfl
  | some n =>
    simp only [hd] at h
    cases r with
    | nil => simp at h
    | cons e r2 =>
      simp only at h
      cases he : digitValue e <;> simp [he] at h

theorem escapeAt_eq_none_iff (v : List Char) :
    escapeAt v = none ↔
      ∀ d r, (v = '%' :: d :: r ∨ v = '%' :: 'L' :: d :: r) → digitValue d = none := by
  constructor
  · intro h d r hv
    rcases hv with hv | hv
    · subst hv
      by_cases hd : d = 'L'
      · rw [hd]; exact digitValue_L
      · simp only [escapeAt, if_true, skipLocale, hd, if_false] at h
        exact head_of_escapeNumber_eq_none h
    · subst hv
      simp only [escapeAt, if_true, skipLocale] at h
      exact head_of_escapeNumber_eq_none h
  · intro h
    cases v with
    | nil => rfl
    | cons c cs =>
      by_cases hc : c = '%'
      · subst hc
        simp only [escapeAt, if_true]
        cases cs with
        | nil => rfl
        | cons l r =>
          by_cases hl : l = 'L'
          · subst hl
            simp only [skipLocale, if_true]
            cases r with
            | nil => rfl
            | cons d r' => exact escapeNumber_eq_none_of_head r' (h d r' (Or.inr rfl))
          · simp only [skipLocale, hl, if_false]
            exact escapeNumber_eq_none_of_head r (h l r (Or.inl rfl))
      · exact escapeAt_cons_ne cs hc

/-- A text is free of place markers exactly when no `%` in it is followed by a
digit, or by `L` and a digit. -/
theorem markerFree_iff (s : String) :
    markerFree s ↔
      ∀ u d r, (s.data = u ++ '%' :: d :: r ∨ s.data = u ++ '%' :: 'L' :: d :: r) →
        digitValue d = none := by
  unfold markerFree
  rw [findArgEscapes_eq_none_iff]
  constructor
  · intro h u d r hs
    rcases hs with hs | hs
    · exact (escapeAt_eq_none_iff _).mp (h u _ hs) d r (Or.inl rfl)
    · exact (escapeAt_eq_none_iff _).mp (h u _ hs) d r (Or.inr rfl)
  · intro h u v hs
    rw [escapeAt_eq_none_iff]
    intro d r hv
    rcases hv with hv | hv
    · exact h u d r (Or.inl (by rw [hs, hv]))
    · exact h u d r (Or.inr (by rw [hs, hv]))

/-- A text without `%` is free of place markers. -/
theorem markerFree_of_noPercent (s : String) (h : noPercent s) : markerFree s := by
  rw [markerFree_iff]
  intro u d r hs
  exfalso
  rcases hs with hs | hs <;> exact h '%' (by rw [hs]; simp) rfl

/-! ## Lists separated by commas -/

theorem resize_append_two (x : String) : resize (x ++ ", ") (size (x ++ ", ") - 2) = x := by
  apply String.ext
  simp [resize, size]

theorem foldl_comma_go : ∀ (xs : List String) (base acc : String),
    xs.foldl (fun w x => w ++ (x ++ ", ")) (base ++ acc ++ ", ") =
      base ++ String.intercalate.go acc ", " xs ++ ", " := by
  intro xs
  induction xs with
  | nil => intro base acc; rfl
  | cons x xs ih =>
    intro base acc
    simp only [List.foldl_cons, String.intercalate.go]
    rw [← ih base (acc ++ ", " ++ x)]
    congr 1
    simp only [String.append_assoc]

theorem foldl_comma (xs : List String) (base : String) (hne : xs ≠ []) :
    xs.foldl (fun w x => w ++ (x ++ ", ")) base = base ++ ", ".intercalate xs ++ ", " := by
  cases xs with
  | nil => exact absurd rfl hne
  | cons x xs =>
    simp only [List.foldl_cons, String.intercalate]
    rw [← String.append_assoc]
    exact foldl_comma_go xs base x

theorem foldl_lastQuery (g : String → String → String) : ∀ (keys : List String) (s : SqlAdapter),
    keys.foldl (fun s k => { s with m_lastQuery := g s.m_lastQuery k }) s =
      { s with m_lastQuery := keys.foldl g s.m_lastQuery } := by
  intro keys
  induction keys with
  | nil => intro s; rfl
  | cons k ks ih => intro s; simp only [List.foldl_cons]; rw [ih]

theorem chopped_list (xs : List String) (base : String) :
    (if !xs.isEmpty then
        resize (xs.foldl (fun w x => w ++ (x ++ ", ")) base)
          (size (xs.foldl (fun w x => w ++ (x ++ ", ")) base) - 2)
      else xs.foldl (fun w x => w ++ (x ++ ", ")) base) = base ++ ", ".intercalate xs := by
  cases xs with
  | nil => simp [String.intercalate]
  | cons x xs =>
    simp only [List.isEmpty_cons, Bool.not_false, if_true]
    rw [foldl_comma (x :: xs) base (by simp), resize_append_two]


theorem foldl_quoted (v : String → String) : ∀ (keys : List String) (base : String),
    keys.foldl (fun w k => w ++ ("'" ++ v k ++ "', ")) base =
      (keys.map (fun k => "'" ++ v k ++ "'")).foldl (fun w x => w ++ (x ++ ", ")) base := by
  intro keys
  induction keys with
  | nil => intro base; rfl
  | cons k ks ih =>
    intro base
    simp only [List.foldl_cons, List.map_cons]
    rw [ih]
    congr 2
    have : "', " = "'" ++ ", " := by decide
    rw [this, String.append_assoc, String.append_assoc, String.append_assoc]

theorem keys_isEmpty {V : Type} (info : QHash V) : info.keys.isEmpty = info.isEmpty := by
  cases info <;> rfl



theorem addRecord_eq (s : SqlAdapter) (tableName : String) (info : QHash QVariant) :
    addRecord s tableName info =
      (({ s with m_lastQuery := insertText tableName info }).execLast.1,
        if ({ s with m_lastQuery := insertText tableName info }).execLast.2 = true then
          ({ s with m_lastQuery := insertText tableName info }).execLast.1.m_query.lastInsertId.toInt
        else -1) := by
  have h1 : arg "INSERT INTO %1(" tableName = "INSERT INTO " ++ tableName ++ "(" := rfl
  have key : ∀ pre : SqlAdapter, pre = { s with m_lastQuery := insertText tableName info } →
      (if pre.execLast.2 = true then (pre.execLast.1, pre.execLast.1.m_query.lastInsertId.toInt)
        else (pre.execLast.1, -1)) =
      (({ s with m_lastQuery := insertText tableName info }).execLast.1,
        if ({ s with m_lastQuery := insertText tableName info }).execLast.2 = true then
          ({ s with m_lastQuery := insertText tableName info }).execLast.1.m_query.lastInsertId.toInt
        else -1) := by
    intro pre hpre
    subst hpre
    split <;> rfl
  unfold addRecord
  apply key
  cases hinfo : info with
  | nil => simp [h1, QHash.keys, String.intercalate, insertText]
  | cons e es =>
    rw [← hinfo]
    have hne : info.keys ≠ [] := by rw [hinfo]; simp [QHash.keys]
    have hemp : info.isEmpty = false := by rw [hinfo]; rfl
    simp only [h1, hemp, Bool.not_false, if_true]
    rw [foldl_lastQuery (fun w k => w ++ (k ++ ", "))]
    simp only []
    rw [foldl_lastQuery (fun w k => w ++ ("'" ++ (info.value QVariant.invalid k).toString ++ "', "))]
    simp only []
    rw [foldl_comma _ _ hne, resize_append_two, foldl_quoted, foldl_comma _ _ (by simpa using hne),
      resize_append_two]
    rfl

/-! ## The statements of the adapter -/

theorem join_foldl : ∀ (l : List String) (acc : String),
    l.foldl (fun r s => r ++ s) acc = acc ++ String.join l := by
  intro l
  induction l with
  | nil => intro acc; simp [String.join]
  | cons a l ih =>
    intro acc
    simp only [List.foldl_cons, String.join]
    rw [ih (acc ++ a), ih ("" ++ a)]
    simp [String.append_assoc]

theorem foldl_segments (seg : String → String) : ∀ (keys : List String) (base : String),
    keys.foldl (fun w k => w ++ seg k) base = base ++ String.join (keys.map seg) := by
  intro keys
  induction keys with
  | nil => intro base; simp [String.join]
  | cons k ks ih =>
    intro base
    simp only [List.foldl_cons, List.map_cons, String.join]
    rw [ih, join_foldl]
    simp [String.append_assoc]

theorem foldl_congr_mem {α β : Type} (f g : β → α → β) : ∀ (l : List α) (b : β),
    (∀ x ∈ l, ∀ y, f y x = g y x) → l.foldl f b = l.foldl g b := by
  intro l
  induction l with
  | nil => intro b _; rfl
  | cons a l ih =>
    intro b h
    simp only [List.foldl_cons]
    rw [h a (by simp) b]
    exact ih _ (fun x hx y => h x (by simp [hx]) y)

theorem foldl_lastQuery_types (g : QHash String → String → String → String) :
    ∀ (keys : List String) (s : SqlAdapter),
    keys.foldl (fun s k => { s with m_lastQuery := g s.m_tableTypes s.m_lastQuery k }) s =
      { s with m_lastQuery := keys.foldl (g s.m_tableTypes) s.m_lastQuery } := by
  intro keys
  induction keys with
  | nil => intro s; rfl
  | cons k ks ih => intro s; simp only [List.foldl_cons]; rw [ih]

theorem arg_column (name kw : String) (h : markerFree name) :
    arg (arg "%1 %2, " name) kw = name ++ " " ++ kw ++ ", " := by
  have h1 : arg "%1 %2, " name = name ++ " %2, " := rfl
  have h2 : arg " %2, " kw = " " ++ kw ++ ", " := rfl
  rw [h1, arg_name _ _ _ h (by decide), h2]
  simp [String.append_assoc]

theorem arg_relation (child parent : String) (h : markerFree child) :
    arg (arg "ALTER TABLE %1 ADD %2_id INTEGER;" child) parent =
      "ALTER TABLE " ++ child ++ " ADD " ++ parent ++ "_id INTEGER;" := by
  have h1 : arg "ALTER TABLE %1 ADD %2_id INTEGER;" child =
      "ALTER TABLE " ++ (child ++ " ADD %2_id INTEGER;") := rfl
  have h2 : arg " ADD %2_id INTEGER;" parent = " ADD " ++ parent ++ "_id INTEGER;" := rfl
  rw [h1, arg_lit _ _ _ (by decide), arg_name _ _ _ h (by decide), h2]
  simp [String.append_assoc]

theorem arg_assignment (fieldName v : String) (h : markerFree fieldName) :
    arg (arg "%1 = '%2', " fieldName) v = fieldName ++ " = '" ++ v ++ "'" ++ ", " := by
  have h1 : arg "%1 = '%2', " fieldName = fieldName ++ " = '%2', " := rfl
  have h2 : arg " = '%2', " v = " = '" ++ v ++ "', " := rfl
  rw [h1, arg_name _ _ _ h (by decide), h2]
  simp [String.append_assoc]

theorem arg_select (fieldName tableName params : String) (hf : markerFree fieldName)
    (ht : markerFree tableName) :
    arg (arg (arg "SELECT %1 FROM %2 %3;" fieldName) tableName) params =
      "SELECT " ++ fieldName ++ " FROM " ++ tableName ++ " " ++ params ++ ";" := by
  have h1 : arg "SELECT %1 FROM %2 %3;" fieldName = "SELECT " ++ (fieldName ++ " FROM %2 %3;") := rfl
  have h2 : arg " FROM %2 %3;" tableName = " FROM " ++ (tableName ++ " %3;") := rfl
  have h3 : arg " %3;" params = " " ++ params ++ ";" := rfl
  have e2 : arg (arg "SELECT %1 FROM %2 %3;" fieldName) tableName =
      "SELECT " ++ (fieldName ++ (" FROM " ++ (tableName ++ " %3;"))) := by
    rw [h1, arg_lit "SELECT " _ _ (by decide), arg_name fieldName _ _ hf (by decide), h2]
  rw [e2, arg_lit "SELECT " _ _ (by decide),
    arg_name fieldName _ _ hf (startsPlain_append _ _ (by decide)),
    arg_lit " FROM " _ _ (by decide), arg_name tableName _ _ ht (by decide), h3]
  simp [String.append_assoc]

theorem arg_aggregate (funcName fieldName tableName params : String) (hn : markerFree funcName)
    (hf : markerFree fieldName) (ht : markerFree tableName) :
    arg (arg (arg (arg "SELECT %1(%2) FROM %3 %4;" funcName) fieldName) tableName) params =
      "SELECT " ++ funcName ++ "(" ++ fieldName ++ ") FROM " ++ tableName ++ " " ++ params ++ ";" := by
  have h1 : arg "SELECT %1(%2) FROM %3 %4;" funcName =
      "SELECT " ++ (funcName ++ "(%2) FROM %3 %4;") := rfl
  have h2 : arg "(%2) FROM %3 %4;" fieldName = "(" ++ (fieldName ++ ") FROM %3 %4;") := rfl
  have h3 : arg ") FROM %3 %4;" tableName = ") FROM " ++ (tableName ++ " %4;") := rfl
  have h4 : arg " %4;" params = " " ++ params ++ ";" := rfl
  have e2 : arg (arg "SELECT %1(%2) FROM %3 %4;" funcName) fieldName =
      "SELECT " ++ (funcName ++ ("(" ++ (fieldName ++ ") FROM %3 %4;"))) := by
    rw [h1, arg_lit "SELECT " _ _ (by decide), arg_name funcName _ _ hn (by decide), h2]
  have e3 : arg (arg (arg "SELECT %1(%2) FROM %3 %4;" funcName) fieldName) tableName =
      "SELECT " ++ (funcName ++ ("(" ++ (fieldName ++ (") FROM " ++ (tableName ++ " %4;"))))) := by
    rw [e2, arg_lit "SELECT " _ _ (by decide),
      arg_name funcName _ _ hn (startsPlain_append _ _ (by decide)),
      arg_lit "(" _ _ (by decide), arg_name fieldName _ _ hf (by decide), h3]
  rw [e3, arg_lit "SELECT " _ _ (by decide),
    arg_name funcName _ _ hn (startsPlain_append _ _ (by decide)),
    arg_lit "(" _ _ (by decide), arg_name fieldName _ _ hf (startsPlain_append _ _ (by decide)),
    arg_lit ") FROM " _ _ (by decide), arg_name tableName _ _ ht (by decide), h4]
  simp [String.append_assoc]

theorem tableTypes_filled (s : SqlAdapter) :
    ∀ e ∈ [("bool", "BOOL"), ("int", "INT"), ("uint", "INT UNSIGNED"), ("qlonglong", "BIGINT"),
        ("qulonglong", "BIGINT UNSIGNED"), ("double", "DOUBLE"), ("QByteArray", "BLOB"),
        ("QChar", "CHAR(1)"), ("QDate", "DATE"), ("QTime", "TIME"), ("QDateTime", "DATETIME"),
        ("QString", "TEXT")],
      (fillTableTypes s).m_tableTypes.value "" e.1 = e.2 := by
  simp [fillTableTypes, QHash.insert, QHash.value, List.find?, List.filter]

theorem resize_append_pair (x : String) (c d : Char) :
    resize (x ++ String.mk [c, d]) (size (x ++ String.mk [c, d]) - 2) = x := by
  apply String.ext
  simp [resize, size]

theorem foldl_comma_map {α : Type} (v : α → String) (keys : List α) (base : String)
    (hne : keys ≠ []) :
    keys.foldl (fun w k => w ++ (v k ++ ", ")) base =
      base ++ ", ".intercalate (keys.map v) ++ ", " := by
  rw [← foldl_comma (keys.map v) base (by simpa using hne), List.foldl_map]

theorem createTable_eq (s : SqlAdapter) (tableName : String) (info : QHash String)
    (h : ∀ k ∈ info.keys, markerFree k) :
    createTable s tableName info =
      ({ s with
          m_lastQuery := "CREATE TABLE " ++ tableName ++ "(id BIGINT, " ++
            String.join (info.keys.map
              (fun k => k ++ " " ++ s.m_tableTypes.value "" (info.value "" k) ++ ", ")) ++
            "PRIMARY KEY (id));" }).execLast := by
  have h1 : arg "CREATE TABLE %1(id BIGINT, " tableName =
      "CREATE TABLE " ++ tableName ++ "(id BIGINT, " := rfl
  unfold createTable
  simp only [h1]
  rw [foldl_lastQuery_types
    (fun types w name => w ++ arg (arg "%1 %2, " name) (types.value "" (info.value "" name)))]
  simp only []
  rw [foldl_congr_mem _
    (fun w k => w ++ (fun k => k ++ " " ++ s.m_tableTypes.value "" (info.value "" k) ++ ", ") k)
    info.keys _ (fun k hk w => by rw [arg_column _ _ (h k hk)]),
    foldl_segments]

theorem updateRecord_eq (s : SqlAdapter) (tableName : String) (id : Int) (info : QHash QVariant)
    (hne : info ≠ []) (h : ∀ k ∈ info.keys, markerFree k) :
    updateRecord s tableName id info =
      ({ s with
          m_lastQuery := "UPDATE " ++ tableName ++ " SET " ++
            ", ".intercalate (info.keys.map
              (fun k => k ++ " = '" ++ (info.value QVariant.invalid k).toString ++ "'")) ++
            " WHERE id = " ++ toString id ++ ";" }).execLast := by
  have h1 : arg "UPDATE %1 SET " tableName = "UPDATE " ++ tableName ++ " SET " := rfl
  have h2 : arg " WHERE id = %1;" (toString id) = " WHERE id = " ++ toString id ++ ";" := rfl
  have hk : info.keys ≠ [] := by
    cases info with
    | nil => exact absurd rfl hne
    | cons e es => simp [QHash.keys]
  unfold updateRecord
  simp only [h1, h2]
  rw [foldl_lastQuery (fun w fieldName => w ++
    arg (arg "%1 = '%2', " fieldName) (info.value QVariant.invalid fieldName).toString)]
  simp only []
  rw [foldl_congr_mem _
    (fun w k => w ++
      ((fun k => k ++ " = '" ++ (info.value QVariant.invalid k).toString ++ "'") k ++ ", "))
    info.keys _ (fun k hk w => by rw [arg_assignment _ _ (h k hk)]),
    foldl_comma_map _ _ _ hk, resize_append_two]
  simp [String.append_assoc]

theorem whereForChildren_eq (parentModel : String) (rows : List QSqlRecord) :
    whereForChildren parentModel rows =
      "WHERE " ++ parentModel ++ "_id IN" ++
        (if rows = [] then ")" else " (" ++ ", ".intercalate (idTexts rows) ++ ")") := by
  have h1 : arg "WHERE %1_id IN (" parentModel = "WHERE " ++ parentModel ++ "_id IN (" := rfl
  have h2 : "WHERE " ++ parentModel ++ "_id IN (" =
      "WHERE " ++ parentModel ++ "_id IN" ++ String.mk [' ', '('] := by
    apply String.ext
    simp
  unfold whereForChildren
  simp only [h1]
  cases rows with
  | nil => simp only [List.foldl_nil, if_true]; rw [h2, resize_append_pair]
  | cons r rs =>
    rw [foldl_comma_map (fun r : QSqlRecord => (r.fieldValue "id").toString) (r :: rs) _ (by simp),
      resize_append_two]
    apply String.ext
    simp [idTexts]

theorem next_log (q : QSqlQuery) : q.next.1.log = q.log := by
  unfold QSqlQuery.next
  split <;> rfl

theorem next_engine (q : QSqlQuery) : q.next.1.engine = q.engine := by
  unfold QSqlQuery.next
  split <;> rfl

theorem value_after_exec (s : SqlAdapter) :
    ({ s.execLast.1 with m_query := s.execLast.1.m_query.next.1 }).m_query.value 0 =
      firstValue s s.m_lastQuery := by
  unfold firstValue fetched SqlAdapter.execLast QSqlQuery.exec QSqlQuery.next QSqlQuery.value
  simp only []
  cases (s.m_query.engine (s.m_query.log ++ [s.m_lastQuery])).ok with
  | false => rfl
  | true =>
    simp only [if_true]
    cases (s.m_query.engine (s.m_query.log ++ [s.m_lastQuery])).rows with
    | nil => rfl
    | cons r rs => rfl

/-! ## Selections and eager loading -/

theorem fetchRows_eq : ∀ (n : Nat) (q : QSqlQuery) (acc : List QSqlRecord),
    q.pending.length < n →
    fetchRows n q acc = ({ q with pending := [], current := none }, acc ++ q.pending) := by
  intro n
  induction n with
  | zero => intro q acc h; simp at h
  | succ n ih =>
    intro q acc h
    obtain ⟨e, l, pend, cur, bl, ins⟩ := q
    cases pend with
    | nil => simp [fetchRows, QSqlQuery.next]
    | cons r rs =>
      simp only [fetchRows, QSqlQuery.next, if_true]
      rw [ih _ _ (by simpa using h)]
      simp [QSqlQuery.record]

theorem find_eq (s : SqlAdapter) (tableName fieldName params : String) :
    find s tableName fieldName params =
      (afterSelect s (arg (arg (arg "SELECT %1 FROM %2 %3;" fieldName) tableName) params),
        fetched s (arg (arg (arg "SELECT %1 FROM %2 %3;" fieldName) tableName) params)) := by
  unfold find
  simp only [SqlAdapter.execLast, QSqlQuery.exec]
  cases h : (s.m_query.engine (s.m_query.log ++
      [arg (arg (arg "SELECT %1 FROM %2 %3;" fieldName) tableName) params])).ok with
  | false => simp [afterSelect, fetched, h]
  | true =>
    simp only [if_true]
    rw [fetchRows_eq _ _ _ (by simp)]
    simp [afterSelect, fetched, h]

theorem value_insert_self {V : Type} (h : QHash V) (d : V) (k : String) (v : V) :
    (h.insert k v).value d k = v := by
  simp [QHash.insert, QHash.value]

theorem find_filter {α : Type} (p q : α → Bool) (hpq : ∀ x, p x = true → q x = true) :
    ∀ l : List α, (l.filter q).find? p = l.find? p := by
  intro l
  induction l with
  | nil => rfl
  | cons x xs ih =>
    cases hq : q x with
    | true => simp only [List.filter_cons, hq, if_true, List.find?_cons, ih]
    | false =>
      have hp : p x = false := by
        cases hp : p x with
        | false => rfl
        | true => rw [hpq x hp] at hq; cases hq
      simp [List.filter_cons, hq, List.find?_cons, hp, ih]

theorem value_insert_of_ne {V : Type} (h : QHash V) (d : V) (k k' : String) (v : V)
    (hne : k' ≠ k) : (h.insert k v).value d k' = h.value d k' := by
  have hk : (k == k') = false := by simpa using fun e : k = k' => hne e.symm
  unfold QHash.insert QHash.value
  rw [List.find?_cons]
  simp only [hk]
  rw [find_filter]
  intro x hx
  have : x.1 = k' := by simpa using hx
  simpa [this] using hne

theorem includes_eq (s : SqlAdapter) (parentModel : String) (childModels : List String)
    (params : String) :
    includes s parentModel childModels params =
      childModels.foldl
        (childStep (whereForChildren parentModel (find s parentModel "*" params).2))
        ((find s parentModel "*" params).1,
          QHash.insert [] parentModel (find s parentModel "*" params).2) := rfl

theorem includes_append (s : SqlAdapter) (parentModel : String) (pre : List String)
    (child : String) (post : List String) (params : String) :
    includes s parentModel (pre ++ child :: post) params =
      post.foldl (childStep (whereForChildren parentModel (find s parentModel "*" params).2))
        (childStep (whereForChildren parentModel (find s parentModel "*" params).2)
          (includes s parentModel pre params) child) := by
  simp only [includes_eq, List.foldl_append, List.foldl_cons]

theorem childStep_value (w : String) : ∀ (post : List String)
    (acc : SqlAdapter × QHash (List QSqlRecord)) (key : String), key ∉ post →
    (post.foldl (childStep w) acc).2.value [] key = acc.2.value [] key := by
  intro post
  induction post with
  | nil => intro acc key _; rfl
  | cons c cs ih =>
    intro acc key h
    simp only [List.foldl_cons]
    rw [ih _ _ (fun hm => h (by simp [hm]))]
    exact value_insert_of_ne _ _ _ _ _ (fun e => h (by simp [e]))

theorem includes_last_child (s : SqlAdapter) (parentModel : String) (pre : List String)
    (child params : String) (hc : markerFree child) :
    includes s parentModel (pre ++ [child]) params =
      (afterSelect (includes s parentModel pre params).1
          ("SELECT * FROM " ++ child ++ " " ++
            whereForChildren parentModel (find s parentModel "*" params).2 ++ ";"),
        (includes s parentModel pre params).2.insert child
          (fetched (includes s parentModel pre params).1
            ("SELECT * FROM " ++ child ++ " " ++
              whereForChildren parentModel (find s parentModel "*" params).2 ++ ";"))) := by
  have hs : "SELECT " ++ "*" ++ " FROM " = "SELECT * FROM " := by decide
  rw [includes_append]
  simp only [List.foldl_nil, childStep]
  rw [find_eq, arg_select _ _ _ (by decide) hc, hs]

/-! ## The history of executed statements -/

theorem count_log (s : SqlAdapter) (tableName a : String) :
    (count s tableName a).1.m_query.log = s.m_query.log ++ [(count s tableName a).1.m_lastQuery] := by
  unfold count
  simp only [SqlAdapter.execLast, QSqlQuery.exec]
  split
  · simp only []; rw [next_log]
  · rfl

theorem countBy_log (s : SqlAdapter) (tableName params : String) :
    (countBy s tableName params).1.m_query.log =
      s.m_query.log ++ [(countBy s tableName params).1.m_lastQuery] := by
  unfold countBy
  simp only [SqlAdapter.execLast, QSqlQuery.exec]
  split
  · simp only []; rw [next_log]
  · rfl

theorem createTable_log (s : SqlAdapter) (tableName : String) (info : QHash String) :
    (createTable s tableName info).1.m_query.log =
      s.m_query.log ++ [(createTable s tableName info).1.m_lastQuery] := by
  unfold createTable
  simp only []
  rw [foldl_lastQuery_types
    (fun types w name => w ++ arg (arg "%1 %2, " name) (types.value "" (info.value "" name)))]
  rfl

theorem updateRecord_log (s : SqlAdapter) (tableName : String) (id : Int) (info : QHash QVariant) :
    (updateRecord s tableName id info).1.m_query.log =
      s.m_query.log ++ [(updateRecord s tableName id info).1.m_lastQuery] := by
  unfold updateRecord
  simp only []
  rw [foldl_lastQuery (fun w fieldName => w ++
    arg (arg "%1 = '%2', " fieldName) (info.value QVariant.invalid fieldName).toString)]
  rfl

theorem calculation_log (s : SqlAdapter) (func : Calculation) (tableName fieldName params : String)
    (hfunc : ∀ code, func ≠ Calculation.other code) :
    (calculation s func tableName fieldName params).1.m_query.log =
      s.m_query.log ++ [(calculation s func tableName fieldName params).1.m_lastQuery] := by
  cases func with
  | other code => exact absurd rfl (hfunc code)
  | _ => simp only [calculation]; rw [next_log]; rfl

theorem childStep_log (w : String) (base : List String) : ∀ (cs : List String)
    (acc : SqlAdapter × QHash (List QSqlRecord)),
    (∃ earlier, acc.1.m_query.log = base ++ earlier ++ [acc.1.m_lastQuery]) →
    ∃ earlier, (cs.foldl (childStep w) acc).1.m_query.log =
      base ++ earlier ++ [(cs.foldl (childStep w) acc).1.m_lastQuery] := by
  intro cs
  induction cs with
  | nil => intro acc h; exact h
  | cons c cs ih =>
    intro acc h
    obtain ⟨earlier, he⟩ := h
    simp only [List.foldl_cons]
    apply ih
    refine ⟨earlier ++ [acc.1.m_lastQuery], ?_⟩
    simp only [childStep]
    rw [find_eq]
    simp [afterSelect, he]

/-- C1 (against the spec's model of the operators): for two non-empty
conditions `a` and `b` with predicate texts `A` and `B`, the condition
`a && b` renders as `(A) AND (B)` and `a || b` as `(A) OR (B)`, both operands
between parentheses and in the order given, and `a` and `b` are the same after
the call as before. -/
theorem where_composition (a b : ORMWhere) (ha : a.getWhereCondition ≠ "")
    (hb : b.getWhereCondition ≠ "") :
    (a.opAnd b).2.2.getWhereCondition =
        "(" ++ a.getWhereCondition ++ ") AND (" ++ b.getWhereCondition ++ ")" ∧
      (a.opOr b).2.2.getWhereCondition =
        "(" ++ a.getWhereCondition ++ ") OR (" ++ b.getWhereCondition ++ ")" ∧
      (a.opAnd b).1 = a ∧ (a.opAnd b).2.1 = b ∧ (a.opOr b).1 = a ∧ (a.opOr b).2.1 = b := by
  have _ := ha
  have _ := hb
  exact ⟨rfl, rfl, rfl, rfl, rfl, rfl⟩

/-- Witness of C1 on `name = 'Bob'` and `name = 'Paul'`. -/
theorem where_composition_witness :
    (ORMWhere.mk "name = 'Bob'").getWhereCondition ≠ "" ∧
      (ORMWhere.mk "name = 'Paul'").getWhereCondition ≠ "" ∧
      ((ORMWhere.mk "name = 'Bob'").opAnd (ORMWhere.mk "name = 'Paul'")).2.2.getWhereCondition =
        "(name = 'Bob') AND (name = 'Paul')" ∧
      ((ORMWhere.mk "name = 'Bob'").opOr (ORMWhere.mk "name = 'Paul'")).2.2.getWhereCondition =
        "(name = 'Bob') OR (name = 'Paul')" :=
  have h := where_composition (ORMWhere.mk "name = 'Bob'") (ORMWhere.mk "name = 'Paul'")
    (by decide) (by decide)
  ⟨by decide, by decide, h.1, h.2.1⟩

/-- C3 as the code has it: `addRecord` returns -1 when executing the INSERT
statement fails, and otherwise the integer the engine reports as the last
inserted identifier, whatever its sign. -/
theorem addRecord_result (s : SqlAdapter) (tableName : String) (info : QHash QVariant) :
    (addRecord s tableName info).2 =
      if (s.m_query.engine
          (s.m_query.log ++ [(addRecord s tableName info).1.m_lastQuery])).ok = true then
        (s.m_query.engine
          (s.m_query.log ++ [(addRecord s tableName info).1.m_lastQuery])).lastInsertId.toInt
      else -1 := by
  rw [addRecord_eq]
  rfl

/-- C3 fails as stated: on an engine that accepts the INSERT statement and
reports no identifier, `addRecord` returns 0, which is neither positive nor
the sentinel -1. -/
theorem addRecord_result_counterexample :
    ¬ (0 < (addRecord (freshAdapter quietEngine) "Car" [("brand", QVariant.ofText "Ford")]).2 ∨
        (addRecord (freshAdapter quietEngine) "Car" [("brand", QVariant.ofText "Ford")]).2 = -1) := by
  decide

/-- C4: for every table name `t` and every mapping with keys `k1..kn` in
iteration order, `addRecord` renders and executes exactly
`INSERT INTO t(k1, ..., kn) VALUES('v1', ..., 'vn');`, `vi` being the text of
the value stored under `ki`, verbatim between single quotes; the two lists have
the same length and order, and the empty mapping gives
`INSERT INTO t() VALUES();`. -/
theorem addRecord_renders (s : SqlAdapter) (tableName : String) (info : QHash QVariant) :
    (addRecord s tableName info).1.m_lastQuery =
        "INSERT INTO " ++ tableName ++ "(" ++ ", ".intercalate info.keys ++ ") VALUES(" ++
          ", ".intercalate
            (info.keys.map (fun k => "'" ++ (info.value QVariant.invalid k).toString ++ "'")) ++
          ");" ∧
      (addRecord s tableName info).1.m_query.log =
        s.m_query.log ++ [(addRecord s tableName info).1.m_lastQuery] ∧
      (info.keys.map
        (fun k => "'" ++ (info.value QVariant.invalid k).toString ++ "'")).length =
          info.keys.length ∧
      (addRecord s tableName []).1.m_lastQuery = "INSERT INTO " ++ tableName ++ "() VALUES();" := by
  refine ⟨?_, ?_, ?_, ?_⟩
  · rw [addRecord_eq]; rfl
  · rw [addRecord_eq]; rfl
  · simp
  · rw [addRecord_eq]
    simp [insertText, SqlAdapter.execLast, QHash.keys, String.intercalate, String.append_assoc]

/-- C5: for every table name `t` and field-name to type-name mapping whose
field names are free of place markers, `createTable` renders and executes
`CREATE TABLE t(id BIGINT, `, then one segment `<field> <keyword>, ` per field,
the keyword being the table type map entry of the field's type name, then
`PRIMARY KEY (id));`, also for the empty mapping; and `fillTableTypes` gives
the map the twelve entries bool->BOOL .. QString->TEXT. -/
theorem createTable_renders (s : SqlAdapter) (tableName : String) (info : QHash String)
    (h : ∀ k ∈ info.keys, markerFree k) :
    (createTable s tableName info).1.m_lastQuery =
        "CREATE TABLE " ++ tableName ++ "(id BIGINT, " ++
          String.join (info.keys.map
            (fun k => k ++ " " ++ s.m_tableTypes.value "" (info.value "" k) ++ ", ")) ++
          "PRIMARY KEY (id));" ∧
      (createTable s tableName info).1.m_query.log =
        s.m_query.log ++ [(createTable s tableName info).1.m_lastQuery] ∧
      (createTable s tableName []).1.m_lastQuery =
        "CREATE TABLE " ++ tableName ++ "(id BIGINT, PRIMARY KEY (id));" ∧
      ∀ e ∈ [("bool", "BOOL"), ("int", "INT"), ("uint", "INT UNSIGNED"), ("qlonglong", "BIGINT"),
          ("qulonglong", "BIGINT UNSIGNED"), ("double", "DOUBLE"), ("QByteArray", "BLOB"),
          ("QChar", "CHAR(1)"), ("QDate", "DATE"), ("QTime", "TIME"), ("QDateTime", "DATETIME"),
          ("QString", "TEXT")],
        (fillTableTypes s).m_tableTypes.value "" e.1 = e.2 := by
  refine ⟨?_, ?_, ?_, tableTypes_filled s⟩
  · rw [createTable_eq _ _ _ h]; rfl
  · rw [createTable_eq _ _ _ h]; rfl
  · rw [createTable_eq _ _ _ (by simp [QHash.keys])]
    simp [SqlAdapter.execLast, QHash.keys, String.join, String.append_assoc]

/-- Witness of C5 on the table `Car(brand QString, year QDate)`. -/
theorem createTable_renders_witness :
    (∀ k ∈ QHash.keys [("brand", "QString"), ("year", "QDate")], markerFree k) ∧
      (createTable (freshAdapter quietEngine) "Car"
          [("brand", "QString"), ("year", "QDate")]).1.m_lastQuery =
        "CREATE TABLE Car(id BIGINT, brand TEXT, year DATE, PRIMARY KEY (id));" :=
  ⟨by decide,
    ((createTable_renders (freshAdapter quietEngine) "Car"
      [("brand", "QString"), ("year", "QDate")] (by decide)).1).trans (by decide)⟩

/-- C6: for a parent table `p`, a child table `c` free of place markers and a
relation kind among HasOne and HasMany, `createTableRelations` renders and
executes exactly `ALTER TABLE c ADD p_id INTEGER;`, the same for both kinds,
and `p_id` is the column `includes` filters the child on: from every state,
for every clause and whatever children come before `c` in the list, the
statement `includes` executes for `c` begins `SELECT * FROM c WHERE p_id IN`,
the rows it stores for `c` are those of that statement, and with at least one
parent row fetched the statement is
`SELECT * FROM c WHERE p_id IN (<id1>, ..., <idn>);`. -/
theorem createTableRelations_renders (s : SqlAdapter) (parent child : String) (rel : Relation)
    (hrel : rel = Relation.HasOne ∨ rel = Relation.HasMany) (hc : markerFree child) :
    (createTableRelations s parent rel child).1.m_lastQuery =
        "ALTER TABLE " ++ child ++ " ADD " ++ parent ++ "_id INTEGER;" ∧
      (createTableRelations s parent rel child).1.m_query.log =
        s.m_query.log ++ ["ALTER TABLE " ++ child ++ " ADD " ++ parent ++ "_id INTEGER;"] ∧
      createTableRelations s parent Relation.HasOne child =
        createTableRelations s parent Relation.HasMany child ∧
      ∀ (t : SqlAdapter) (pre : List String) (params : String),
        (∃ rest : String,
            (includes t parent (pre ++ [child]) params).1.m_lastQuery =
              "SELECT * FROM " ++ child ++ " WHERE " ++ parent ++ "_id IN" ++ rest) ∧
          (includes t parent (pre ++ [child]) params).1.m_query.log =
            (includes t parent pre params).1.m_query.log ++
              [(includes t parent (pre ++ [child]) params).1.m_lastQuery] ∧
          (includes t parent (pre ++ [child]) params).2.value [] child =
            fetched (includes t parent pre params).1
              (includes t parent (pre ++ [child]) params).1.m_lastQuery ∧
          ((find t parent "*" params).2 ≠ [] →
            (includes t parent (pre ++ [child]) params).1.m_lastQuery =
              "SELECT * FROM " ++ child ++ " WHERE " ++ parent ++ "_id IN (" ++
                ", ".intercalate (idTexts (find t parent "*" params).2) ++ ");") := by
  have e : createTableRelations s parent rel child =
      ({ s with m_lastQuery :=
          "ALTER TABLE " ++ child ++ " ADD " ++ parent ++ "_id INTEGER;" }).execLast := by
    unfold createTableRelations
    rw [if_pos hrel, arg_relation _ _ hc]
  refine ⟨?_, ?_, rfl, ?_⟩
  · rw [e]; rfl
  · rw [e]; rfl
  · intro t pre params
    rw [includes_last_child t parent pre child params hc]
    refine ⟨?_, rfl, value_insert_self _ _ _ _, ?_⟩
    · refine ⟨(if (find t parent "*" params).2 = [] then ")"
          else " (" ++ ", ".intercalate (idTexts (find t parent "*" params).2) ++ ")") ++ ";", ?_⟩
      show "SELECT * FROM " ++ child ++ " " ++
          whereForChildren parent (find t parent "*" params).2 ++ ";" = _
      rw [whereForChildren_eq]
      apply String.ext
      simp
    · intro hrows
      show "SELECT * FROM " ++ child ++ " " ++
          whereForChildren parent (find t parent "*" params).2 ++ ";" = _
      rw [whereForChildren_eq, if_neg hrows]
      apply String.ext
      simp

/-- Witness of C6 on the relation of the table `a` to the table `b`. -/
theorem createTableRelations_renders_witness :
    (Relation.HasMany = Relation.HasOne ∨ Relation.HasMany = Relation.HasMany) ∧
      markerFree "b" ∧
      (find (freshAdapter oneRowEngine) "a" "*" "").2 ≠ [] ∧
      (createTableRelations (freshAdapter oneRowEngine) "a" Relation.HasMany "b").1.m_lastQuery =
        "ALTER TABLE b ADD a_id INTEGER;" ∧
      (includes (freshAdapter oneRowEngine) "a" ["b"] "").1.m_lastQuery =
        "SELECT * FROM b WHERE a_id IN (1);" :=
  have h := createTableRelations_renders (freshAdapter oneRowEngine) "a" "b" Relation.HasMany
    (by decide) (by decide)
  ⟨by decide, by decide, by decide, (h.1).trans (by decide),
    ((h.2.2.2 (freshAdapter oneRowEngine) [] "").2.2.2 (by decide)).trans (by decide)⟩

/-- C7 at the empty mapping: `updateRecord` cuts two characters of
`UPDATE t SET ` itself, so the statement it renders and executes is
`UPDATE t SE WHERE id = 1;`, which does not begin with `UPDATE t SET `. -/
theorem updateRecord_empty_mapping (s : SqlAdapter) :
    (updateRecord s "t" 1 []).1.m_lastQuery = "UPDATE t SE WHERE id = 1;" ∧
      (updateRecord s "t" 1 []).1.m_query.log = s.m_query.log ++ ["UPDATE t SE WHERE id = 1;"] ∧
      ¬ "UPDATE t SET ".data <+: (updateRecord s "t" 1 []).1.m_lastQuery.data := by
  have e : (updateRecord s "t" 1 []).1.m_lastQuery = "UPDATE t SE WHERE id = 1;" := rfl
  refine ⟨e, ?_, ?_⟩
  · have : (updateRecord s "t" 1 []).1.m_query.log =
        s.m_query.log ++ [(updateRecord s "t" 1 []).1.m_lastQuery] := rfl
    rw [this, e]
  · rw [e]; decide

/-- On a non-empty mapping whose field names are free of place markers,
`updateRecord` renders and executes
`UPDATE t SET k1 = 'v1', ..., km = 'vm' WHERE id = n;`. -/
theorem updateRecord_renders (s : SqlAdapter) (tableName : String) (id : Int)
    (info : QHash QVariant) (hne : info ≠ []) (h : ∀ k ∈ info.keys, markerFree k) :
    (updateRecord s tableName id info).1.m_lastQuery =
        "UPDATE " ++ tableName ++ " SET " ++
          ", ".intercalate (info.keys.map
            (fun k => k ++ " = '" ++ (info.value QVariant.invalid k).toString ++ "'")) ++
          " WHERE id = " ++ toString id ++ ";" ∧
      (updateRecord s tableName id info).1.m_query.log =
        s.m_query.log ++ [(updateRecord s tableName id info).1.m_lastQuery] := by
  rw [updateRecord_eq _ _ _ _ hne h]
  exact ⟨rfl, rfl⟩

/-- C9 as the code has it: for field and table names free of place markers,
`calculation` renders and executes `SELECT <F>(<field>) FROM <table> <clause>;`
with F = AVG, MAX, MIN, SUM for Average, Maximum, Minimum, Sum, and returns the
first column of the first result row as a number (zero when there is none);
for every other selector it returns 0 and leaves the adapter as it was. -/
theorem calculation_renders (s : SqlAdapter) (tableName fieldName params : String)
    (hf : markerFree fieldName) (ht : markerFree tableName) :
    rendersAggregate s Calculation.Average "AVG" tableName fieldName params ∧
      rendersAggregate s Calculation.Maximum "MAX" tableName fieldName params ∧
      rendersAggregate s Calculation.Minimum "MIN" tableName fieldName params ∧
      rendersAggregate s Calculation.Sum "SUM" tableName fieldName params ∧
      ∀ code, calculation s (Calculation.other code) tableName fieldName params = (s, 0) := by
  have key : ∀ (func : Calculation) (F : String), markerFree F →
      calculation s func tableName fieldName params =
        (let t := { s with m_lastQuery :=
            (arg (arg (arg (arg "SELECT %1(%2) FROM %3 %4;" F) fieldName) tableName) params) }
         let u := { t.execLast.1 with m_query := t.execLast.1.m_query.next.1 }
         (u, (u.m_query.value 0).toDouble)) →
      rendersAggregate s func F tableName fieldName params := by
    intro func F hF e
    unfold rendersAggregate
    rw [e, arg_aggregate _ _ _ _ hF hf ht]
    refine ⟨?_, ?_, ?_⟩
    · rfl
    · simp only []
      rw [next_log]
      rfl
    · simp only []
      rw [value_after_exec]
      rfl
  exact ⟨key _ "AVG" (by decide) rfl, key _ "MAX" (by decide) rfl, key _ "MIN" (by decide) rfl,
    key _ "SUM" (by decide) rfl, fun _ => rfl⟩

/-- Witness of C9 on the sum of `price` over `Car`. -/
theorem calculation_renders_witness :
    markerFree "price" ∧ markerFree "Car" ∧
      (calculation (freshAdapter quietEngine) Calculation.Sum "Car" "price" "").1.m_lastQuery =
        "SELECT SUM(price) FROM Car ;" :=
  ⟨by decide, by decide,
    ((calculation_renders (freshAdapter quietEngine) "Car" "price" "" (by decide)
      (by decide)).2.2.2.1.1).trans (by decide)⟩

/-- C9 fails as stated: with the field expression `price%2`, whose `%2` is a
place marker, the statement `calculation` renders for Sum is not
`SELECT SUM(price%2) FROM t ;`. -/
theorem calculation_renders_counterexample :
    (calculation (freshAdapter quietEngine) Calculation.Sum "t" "price%2" "").1.m_lastQuery ≠
      "SELECT SUM(" ++ "price%2" ++ ") FROM " ++ "t" ++ " " ++ "" ++ ";" := by
  decide

/-- C2 as the code has it: when at least one parent row is fetched and the
listed child tables are free of place markers, `includes` returns a mapping in
which the parent table maps to the rows fetched by `find(parent, "*", clause)`
provided the parent is not itself listed as a child, and every listed child
maps to the rows the engine returns to
`SELECT * FROM <child> WHERE <parent>_id IN (<id1>, ..., <idn>);`, the statement
executed for that child, which lists the id text of every fetched parent row
once, in order (for a child listed several times, its last execution). -/
theorem includes_rows (s : SqlAdapter) (parentModel : String) (childModels : List String)
    (params : String) (hrows : (find s parentModel "*" params).2 ≠ [])
    (hfree : ∀ c ∈ childModels, markerFree c) :
    (parentModel ∉ childModels →
        (includes s parentModel childModels params).2.value [] parentModel =
          (find s parentModel "*" params).2) ∧
      ∀ (pre : List String) (child : String) (post : List String),
        childModels = pre ++ child :: post → child ∉ post →
        (includes s parentModel (pre ++ [child]) params).1.m_lastQuery =
            "SELECT * FROM " ++ child ++ " WHERE " ++ parentModel ++ "_id IN (" ++
              ", ".intercalate (idTexts (find s parentModel "*" params).2) ++ ");" ∧
          (includes s parentModel childModels params).2.value [] child =
            fetched (includes s parentModel pre params).1
              ("SELECT * FROM " ++ child ++ " WHERE " ++ parentModel ++ "_id IN (" ++
                ", ".intercalate (idTexts (find s parentModel "*" params).2) ++ ");") := by
  have hw : whereForChildren parentModel (find s parentModel "*" params).2 =
      "WHERE " ++ parentModel ++ "_id IN (" ++
        ", ".intercalate (idTexts (find s parentModel "*" params).2) ++ ")" := by
    rw [whereForChildren_eq, if_neg hrows]
    apply String.ext
    simp
  have hstmt : ∀ child, markerFree child →
      arg (arg (arg "SELECT %1 FROM %2 %3;" "*") child)
          (whereForChildren parentModel (find s parentModel "*" params).2) =
        "SELECT * FROM " ++ child ++ " WHERE " ++ parentModel ++ "_id IN (" ++
          ", ".intercalate (idTexts (find s parentModel "*" params).2) ++ ");" := by
    intro child hc
    rw [arg_select _ _ _ (by decide) hc, hw]
    apply String.ext
    simp
  refine ⟨?_, ?_⟩
  · intro hp
    rw [includes_eq, childStep_value _ _ _ _ hp]
    exact value_insert_self _ _ _ _
  · intro pre child post hsplit hpost
    have hc : markerFree child := hfree child (by rw [hsplit]; simp)
    refine ⟨?_, ?_⟩
    · rw [includes_append]
      simp only [List.foldl_nil, childStep]
      rw [find_eq, hstmt child hc]
      rfl
    · rw [hsplit, includes_append, childStep_value _ _ _ _ hpost]
      simp only [childStep]
      rw [value_insert_self, find_eq, hstmt child hc]

/-- Witness of C2 on the parent table `a` with one row and the child `b`. -/
theorem includes_rows_witness :
    (find (freshAdapter oneRowEngine) "a" "*" "").2 ≠ [] ∧
      (∀ c ∈ ["b"], markerFree c) ∧
      (includes (freshAdapter oneRowEngine) "a" ["b"] "").2.value [] "a" =
        (find (freshAdapter oneRowEngine) "a" "*" "").2 ∧
      (includes (freshAdapter oneRowEngine) "a" ["b"] "").1.m_lastQuery =
        "SELECT * FROM b WHERE a_id IN (1);" :=
  ⟨by decide, by decide,
    (includes_rows (freshAdapter oneRowEngine) "a" ["b"] "" (by decide) (by decide)).1 (by decide),
    (((includes_rows (freshAdapter oneRowEngine) "a" ["b"] "" (by decide) (by decide)).2
      [] "b" [] rfl (by decide)).1).trans (by decide)⟩

/-- C2 fails as stated when a child table has the name of the parent: the
entry of the parent then holds the rows of the child statement, not the rows
fetched by `find(parent, "*", clause)`. -/
theorem includes_rows_counterexample :
    (includes (freshAdapter oneRowEngine) "a" ["a"] "").2.value [] "a" ≠
      (find (freshAdapter oneRowEngine) "a" "*" "").2 := by
  decide

/-- With no parent row fetched, `includes` cuts two characters of
`WHERE a_id IN (` itself: the child statement is `SELECT * FROM b WHERE a_id IN);`. -/
theorem includes_no_parent_row :
    (find (freshAdapter quietEngine) "a" "*" "").2 = [] ∧
      (includes (freshAdapter quietEngine) "a" ["b"] "").1.m_query.log =
        ["SELECT * FROM a ;", "SELECT * FROM b WHERE a_id IN);"] := by
  decide

/-- A place marker in the name of a child table takes the filter text of
`includes`: for the child `b%1` the statement is not
`SELECT * FROM b%1 WHERE a_id IN (1);`. -/
theorem includes_child_marker :
    (includes (freshAdapter oneRowEngine) "a" ["b%1"] "").1.m_lastQuery =
      "SELECT * FROM bWHERE a_id IN (1) %3;" := by
  decide

/-- C8 as the code has it: every operation of the adapter, `calculation` with
a selector outside the four aggregates and `createTableRelations` with a kind
outside HasOne and HasMany apart, overwrites the last rendered query: the
outcome of the call does not depend on the value the field had before, and the
statement the call executes (for `includes`, the last one) is the text the
field holds afterwards. -/
theorem lastQuery_overwritten (name tableName fieldName params parent child : String)
    (types : QHash String) (info : QHash QVariant) (id : Int) (rel : Relation)
    (func : Calculation) (childModels : List String)
    (hrel : rel = Relation.HasOne ∨ rel = Relation.HasMany)
    (hfunc : ∀ code, func ≠ Calculation.other code) :
    overwrites (fun s => createDatabase s name) ∧
      overwrites (fun s => createTable s tableName types) ∧
      overwrites (fun s => createTableRelations s parent rel child) ∧
      overwrites (fun s => dropTable s tableName) ∧
      overwrites (fun s => dropDatabase s name) ∧
      overwrites (fun s => addRecord s tableName info) ∧
      overwrites (fun s => updateRecord s tableName id info) ∧
      overwrites (fun s => find s tableName fieldName params) ∧
      overwrites (fun s => first s tableName) ∧
      overwrites (fun s => last s tableName) ∧
      overwrites (fun s => remove s tableName params) ∧
      overwrites (fun s => count s tableName fieldName) ∧
      overwrites (fun s => countBy s tableName params) ∧
      overwrites (fun s => calculation s func tableName fieldName params) ∧
      overwritesLast (fun s => includes s parent childModels params) := by
  refine ⟨?_, ?_, ?_, ?_, ?_, ?_, ?_, ?_, ?_, ?_, ?_, ?_, ?_, ?_, ?_⟩
  · exact fun s q => ⟨rfl, rfl⟩
  · exact fun s q => ⟨rfl, createTable_log s tableName types⟩
  · intro s q
    have e : ∀ t : SqlAdapter, createTableRelations t parent rel child =
        ({ t with m_lastQuery :=
            (arg (arg "ALTER TABLE %1 ADD %2_id INTEGER;" child) parent) }).execLast := by
      intro t; unfold createTableRelations; rw [if_pos hrel]
    simp only [e]
    exact ⟨trivial, rfl⟩
  · exact fun s q => ⟨rfl, rfl⟩
  · exact fun s q => ⟨rfl, rfl⟩
  · intro s q
    refine ⟨rfl, ?_⟩
    simp only [addRecord_eq]
    rfl
  · exact fun s q => ⟨rfl, updateRecord_log s tableName id info⟩
  · intro s q
    refine ⟨rfl, ?_⟩
    simp only [find_eq]
    rfl
  · intro s q
    refine ⟨rfl, ?_⟩
    simp only [first]; rw [next_log]; rfl
  · intro s q
    refine ⟨rfl, ?_⟩
    simp only [last]; rw [next_log]; rfl
  · exact fun s q => ⟨rfl, rfl⟩
  · exact fun s q => ⟨rfl, count_log s tableName fieldName⟩
  · exact fun s q => ⟨rfl, countBy_log s tableName params⟩
  · intro s q
    refine ⟨?_, calculation_log s func tableName fieldName params hfunc⟩
    cases func with
    | other code => exact absurd rfl (hfunc code)
    | _ => rfl
  · intro s q
    refine ⟨rfl, ?_⟩
    simp only [includes_eq]
    apply childStep_log
    refine ⟨[], ?_⟩
    rw [find_eq]
    simp [afterSelect]

/-- Witness of C8 on `calculation` with the selector Sum. -/
theorem lastQuery_overwritten_witness :
    (Relation.HasMany = Relation.HasOne ∨ Relation.HasMany = Relation.HasMany) ∧
      (∀ code, Calculation.Sum ≠ Calculation.other code) ∧
      (calculation { freshAdapter quietEngine with m_lastQuery := "DROP TABLE Car;" }
          Calculation.Sum "Car" "price" "" =
        calculation (freshAdapter quietEngine) Calculation.Sum "Car" "price" "" ∧
      (calculation (freshAdapter quietEngine) Calculation.Sum "Car" "price" "").1.m_query.log =
        (freshAdapter quietEngine).m_query.log ++
          [(calculation (freshAdapter quietEngine) Calculation.Sum "Car" "price" "").1.m_lastQuery]) :=
  have hsum : ∀ code, Calculation.Sum ≠ Calculation.other code := fun _ h => nomatch h
  have h := lastQuery_overwritten "db" "Car" "price" "" "Car" "Wheel" [] [] 1 Relation.HasMany
    Calculation.Sum [] (Or.inr rfl) hsum
  have hcalc := h.2.2.2.2.2.2.2.2.2.2.2.2.2.1
  ⟨Or.inr rfl, hsum, hcalc (freshAdapter quietEngine) "DROP TABLE Car;"⟩

/-- C8 fails as stated: `calculation` with a selector that is none of the four
aggregates returns before it renders anything, so the field keeps the text it
had before the call. -/
theorem lastQuery_overwritten_counterexample :
    ¬ overwrites (fun s => calculation s (Calculation.other 0) "Car" "price" "") := by
  intro h
  have e := congrArg (fun r => r.1.m_lastQuery) (h (freshAdapter quietEngine) "DROP TABLE Car;").1
  exact absurd e (by decide)

/-- With a relation kind other than HasOne and HasMany, `createTableRelations`
renders nothing and executes the text the field already holds. -/
theorem createTableRelations_other_kind (s : SqlAdapter) (parent child : String) (code : Nat) :
    (createTableRelations s parent (Relation.other code) child).1.m_lastQuery = s.m_lastQuery ∧
      (createTableRelations s parent (Relation.other code) child).1.m_query.log =
        s.m_query.log ++ [s.m_lastQuery] :=
  ⟨rfl, rfl⟩

end ORM
